import Mathlib

/-!
Verification development for the waybar-music repository
(`scripts/lyrics.py` and `scripts/player.py`).

The Python sources are shallowly embedded: strings are modelled as
`List Char` (`Str`), Python integers as `Int`/`Nat`, dictionaries as
insertion-ordered association lists, and the file system / subprocess
world as explicit parameters.  Each definition mirrors one Python
function or one contiguous code region, named after its source symbol.
-/

/-- Strings of the embedded program: Python `str` as a list of characters. -/
abbrev Str := List Char

/-- Coercion from Lean string literals to the embedded string type. -/
def cs (s : String) : Str := s.data

/-- Python `\s` for the ASCII range: space, tab, newline, carriage return,
vertical tab and form feed (the whitespace class used by `str.strip()` and
`re \s` on the data appearing in this program). -/
def pyIsSpace (c : Char) : Bool :=
  c = ' ' || c = '\t' || c = '\n' || c = '\x0d' || c = '\x0b' || c = '\x0c'

/-- Python `str.strip()`: drop leading and trailing whitespace. -/
def pyStrip (s : Str) : Str :=
  ((s.dropWhile pyIsSpace).reverse.dropWhile pyIsSpace).reverse

/-- Python `str.lower()` (ASCII case folding, which is what the data
flowing through this program exercises). -/
def toLowerStr (s : Str) : Str := s.map Char.toLower

/-- Python `needle in hay` substring test. -/
def containsInfix (needle hay : Str) : Bool :=
  match hay with
  | [] => needle.isPrefixOf ([] : Str)
  | _ :: t => needle.isPrefixOf hay || containsInfix needle t

/-! ## Event Parser (lyrics.py lines 407-414, player.py lines 458-462)

While inside a metadata block, a line is split on its first colon; both
halves are stripped and stored in the accumulator dictionary.  A line
with no colon is logged and ignored. -/

/-- Python `line.split(":", 1)` followed by stripping both parts, as done
for a line inside a metadata block; `none` when the line has no colon.
The split keeps everything before the first colon as the key and
everything after it as the value. -/
def parseBlockLine (line : Str) : Option (Str × Str) :=
  match line.span (fun c => c ≠ ':') with
  | (_, []) => none
  | (k, _ :: v) => some (pyStrip k, pyStrip v)

/-- Python dict assignment `d[k] = v`: replace the value of an existing
key in place, otherwise append the new binding (insertion order kept). -/
def dictSet (d : List (Str × Str)) (k v : Str) : List (Str × Str) :=
  if d.any (fun p => p.1 = k) then
    d.map (fun p => if p.1 = k then (p.1, v) else p)
  else
    d ++ [(k, v)]

/-- Python `d.get(k, dflt)`. -/
def dictGetD (d : List (Str × Str)) (k : Str) (dflt : Str) : Str :=
  match d.find? (fun p => p.1 = k) with
  | some p => p.2
  | none => dflt

/-- Python `d.get(k)` returning an option. -/
def dictGet (d : List (Str × Str)) (k : Str) : Option Str :=
  (d.find? (fun p => p.1 = k)).map (fun p => p.2)

/-- One in-block line of the event parser: `key:value` lines update the
accumulator, lines without a colon are ignored
(lyrics.py lines 407-414; player.py lines 458-462 are identical). -/
def processBlockLine (d : List (Str × Str)) (line : Str) : List (Str × Str) :=
  match parseBlockLine line with
  | some (k, v) => dictSet d k v
  | none => d

/-- The accumulator after an entire block body, starting from the empty
dictionary reset at the begin marker. -/
def runBlock (lines : List Str) : List (Str × Str) :=
  lines.foldl processBlockLine []

/-- The last `key:value` line of `lines` whose (stripped) key is `k`,
i.e. the last-write-wins value the claim describes. -/
def lastWriteWins (lines : List Str) (k : Str) : Option Str :=
  (((lines.filterMap parseBlockLine).filter (fun p => p.1 = k)).getLast?).map
    (fun p => p.2)

/-! ## Session state (lyrics.py `cached_song_info` and the listen loop) -/

/-- The persisted `cached_song_info` dictionary of lyrics.py
(lines 50-59): `None`-able fields are options. -/
structure SongInfo where
  title : Option Str
  artist : Option Str
  qq_song_mid : Option Str
  lyrics_file_path : Option Str
  lyrics_parsed_content : List (Int × Str)
  last_fetched_timestamp : Int
  playerctl_track_id : Option Str
  status : Str
deriving DecidableEq, Repr

/-- The in-loop state of `listen_to_playerctl_and_update_waybar`:
the cache plus `last_processed_playerctl_track_id_from_event`. -/
structure LoopState where
  cache : SongInfo
  lastId : Option Str
deriving DecidableEq, Repr

/-- One `{"text","tooltip","class"}` JSON object written to stdout by
`output_waybar_json`. -/
structure Snapshot where
  text : Str
  tooltip : Str
  cssClass : Str
deriving DecidableEq, Repr

/-- Python truthiness of `cached_song_info.get("title")`. -/
def titleTruthy (s : SongInfo) : Bool :=
  match s.title with
  | none => false
  | some t => t ≠ []

/-- The guard `cached_song_info.get("status") != "stopped" or
cached_song_info.get("title")` used both by the standalone stop-line
handler (line 423) and by the timeout probe handler (lines 463, 480). -/
def activeSession (s : SongInfo) : Bool :=
  s.status ≠ cs "stopped" || titleTruthy s

/-- The `cached_song_info.update({...})` performed on the clear paths
(lines 426-428, 466-470, 482): identity, lyrics, source, path cleared,
status forced to "stopped"; `last_fetched_timestamp` is kept. -/
def clearSongInfo (s : SongInfo) : SongInfo :=
  { s with title := none, artist := none, lyrics_parsed_content := [],
           playerctl_track_id := none, qq_song_mid := none,
           lyrics_file_path := none, status := cs "stopped" }

/-- The stop/absence phrase test of the standalone-line handler
(lyrics.py lines 420-422): case-insensitive substring match. -/
def isStopLine (line : Str) : Bool :=
  let l := toLowerStr line
  containsInfix (cs "no player is running") l ||
  containsInfix (cs "no players found") l ||
  containsInfix (cs "stopped") l

/-- lyrics.py lines 416-431: handling of a standalone (out-of-block)
line.  Returns the new loop state, the emitted snapshots, and the number
of `save_song_info_cache` calls. -/
def handleStandaloneLine (line : Str) (st : LoopState) :
    LoopState × List Snapshot × Nat :=
  if isStopLine line then
    if activeSession st.cache then
      (⟨clearSongInfo st.cache, none⟩,
       [⟨cs "No Media", cs "Player stopped or not running", cs "offline"⟩], 1)
    else (st, [], 0)
  else (st, [], 0)

/-! ## Liveness probe (lyrics.py lines 433-490)

On a readline timeout the loop runs `playerctl --player=playerctld
status` with its own 2 s timeout and dispatches on the outcome. -/

/-- Outcome of the one-shot probe subprocess as observed by the handler:
normal completion with exit code and raw stdout, the probe's own
timeout, or an unexpected exception while running it. -/
inductive ProbeResult where
  | completed (returncode : Int) (stdoutRaw : Str)
  | timedOut
  | raised
deriving DecidableEq, Repr

/-- lyrics.py lines 452-460: `player_is_effectively_stopped` from the
probe's exit code and its stripped, lowercased stdout. -/
def probeStopped (returncode : Int) (out : Str) : Bool :=
  returncode ≠ 0 ||
  containsInfix (cs "no player is running") out ||
  containsInfix (cs "no players found") out ||
  out = cs "stopped"

/-- lyrics.py lines 433-490: the whole `except asyncio.TimeoutError`
handler of the listen loop, given the probe outcome.  Returns the new
loop state, emitted snapshots, and the number of cache saves. -/
def handleReadTimeout (pr : ProbeResult) (st : LoopState) :
    LoopState × List Snapshot × Nat :=
  match pr with
  | .completed rc raw =>
    let out := toLowerStr (pyStrip raw)
    if probeStopped rc out then
      if activeSession st.cache then
        (⟨clearSongInfo st.cache, none⟩,
         [⟨cs "No Media", cs "Player stopped or not responding", cs "offline"⟩], 1)
      else (st, [], 0)
    else (st, [], 0)
  | .timedOut =>
    if activeSession st.cache then
      (⟨clearSongInfo st.cache, none⟩,
       [⟨cs "No Media", cs "Player unresponsive (status check timeout)", cs "error"⟩], 1)
    else (st, [], 0)
  | .raised =>
    (st, [⟨cs "Status Check Error", cs "Error checking player status", cs "error"⟩], 0)

/-! ## Lyric refresh decision (lyrics.py lines 322-369)

Per completed metadata block the loop extracts title/artist/track id and
decides whether to run lyric resolution and overwrite the cache. -/

/-- Extraction of the block fields used by the refresh decision
(lyrics.py lines 322-325): `active_metadata_dict.get(key, "")`, stripped
for title and artist. -/
def blockTitle (d : List (Str × Str)) : Str := pyStrip (dictGetD d (cs "title") [])

/-- Artist field of a completed block, stripped. -/
def blockArtist (d : List (Str × Str)) : Str := pyStrip (dictGetD d (cs "artist") [])

/-- Track id field of a completed block (not stripped in the source). -/
def blockTrackId (d : List (Str × Str)) : Str := dictGetD d (cs "track_id") []

/-- lyrics.py line 335: `current_playerctl_track_id !=
last_processed_playerctl_track_id_from_event` (a Python `str` compared
with an `Optional[str]`; `None` differs from every string). -/
def songChangedViaTrackId (curId : Str) (lastId : Option Str) : Bool :=
  match lastId with
  | none => true
  | some l => curId ≠ l

/-- lyrics.py lines 336-339: case-insensitive comparison of the block's
title and artist with the cached ones (`None` read as `""`). -/
def songChangedViaMeta (title artist : Str) (s : SongInfo) : Bool :=
  toLowerStr title ≠ toLowerStr (s.title.getD []) ||
  toLowerStr artist ≠ toLowerStr (s.artist.getD [])

/-- lyrics.py line 340: `song_changed = song_changed_via_track_id or
(not current_playerctl_track_id and song_changed_via_meta)`. -/
def songChanged (curId : Str) (lastId : Option Str) (title artist : Str)
    (s : SongInfo) : Bool :=
  songChangedViaTrackId curId lastId ||
  (curId = [] && songChangedViaMeta title artist s)

/-- lyrics.py line 342: `os.path.exists(path) if path else False`, the
`os.path.exists` verdict supplied as the abstract input `disk`. -/
def lyricsFileExistsB (s : SongInfo) (disk : Bool) : Bool :=
  match s.lyrics_file_path with
  | none => false
  | some p => if p = [] then false else disk

/-- lyrics.py line 343: more than 3600 seconds since the last fetch. -/
def cacheExpired (s : SongInfo) (now : Int) : Bool :=
  now - s.last_fetched_timestamp > 3600

/-- lyrics.py lines 345-348: `should_fetch_new_lyrics`, deciding whether
lyric resolution plus the cache overwrite and persist run for a block. -/
def should_fetch_new_lyrics (d : List (Str × Str)) (st : LoopState)
    (disk : Bool) (now : Int) : Bool :=
  let title := blockTitle d
  let artist := blockArtist d
  let curId := blockTrackId d
  (songChanged curId st.lastId title artist st.cache && title ≠ []) ||
  (title ≠ [] && st.cache.lyrics_parsed_content = []) ||
  (title ≠ [] && !lyricsFileExistsB st.cache disk) ||
  (title ≠ [] && cacheExpired st.cache now)

/-- Modelled from the words of the claim/spec, for comparison with the
source's rule: two identities are the same track iff the ids match when
both are non-empty, and otherwise (either id empty) iff title and artist
match case-insensitively.  The stored id is the last-processed one. -/
def claimTrackChanged (curId : Str) (lastId : Option Str) (title artist : Str)
    (s : SongInfo) : Bool :=
  let storedId := lastId.getD []
  if curId ≠ [] && storedId ≠ [] then curId ≠ storedId
  else
    !(toLowerStr title = toLowerStr (s.title.getD []) &&
      toLowerStr artist = toLowerStr (s.artist.getD []))

/-- Modelled from the words of the claim: refresh iff the title is
non-empty and (the track changed per the spec's identity rule, or stored
lyrics are empty, or the cached lyrics file is gone, or the cache is
older than 3600 s). -/
def claimShouldRefresh (d : List (Str × Str)) (st : LoopState)
    (disk : Bool) (now : Int) : Bool :=
  let title := blockTitle d
  title ≠ [] &&
  (claimTrackChanged (blockTrackId d) st.lastId title (blockArtist d) st.cache ||
   st.cache.lyrics_parsed_content = [] ||
   !lyricsFileExistsB st.cache disk ||
   cacheExpired st.cache now)

/-- The refresh rule as actually implemented, regrouped: the title is
non-empty and (the raw current track id differs from the last-processed
one with `None` distinct from every string, or the current id is empty
and the case-insensitive title or artist differs from the cache, or the
stored lyrics are empty, or the cached lyrics file no longer exists, or
more than 3600 seconds passed since the last fetch). -/
def amendedShouldRefresh (d : List (Str × Str)) (st : LoopState)
    (disk : Bool) (now : Int) : Bool :=
  blockTitle d ≠ [] &&
  (songChanged (blockTrackId d) st.lastId (blockTitle d) (blockArtist d) st.cache ||
   st.cache.lyrics_parsed_content = [] ||
   !lyricsFileExistsB st.cache disk ||
   cacheExpired st.cache now)

/-! ## Lyric line selection (lyrics.py lines 375-398) -/

/-- The `for i in range(len(...))` scan of lyrics.py lines 378-384:
walks the sequence while `position_ms >= ts`, tracking the current text,
the lookahead text and the found flag, and breaks at the first entry
whose timestamp exceeds the position. -/
def lyricScan (pos : Int) : List (Int × Str) → Str → Str → Bool → Str × Str × Bool
  | [], cur, nxt, found => (cur, nxt, found)
  | (ts, txt) :: rest, cur, nxt, found =>
    if pos ≥ ts then
      lyricScan pos rest txt ((rest.head?.map Prod.snd).getD nxt) true
    else (cur, nxt, found)

/-- lyrics.py lines 376-388: the current/next lyric lines displayed for
a playing/paused status, including the not-found fallback to the first
entry and the end-of-song blanking of the next line. -/
def select_lyric_line (lyricsToDisplay : List (Int × Str)) (pos : Int) :
    Str × Str :=
  let r := lyricScan pos lyricsToDisplay [] [] false
  let cur := r.1
  let nxt := r.2.1
  let found := r.2.2
  let p1 :=
    if found = false then
      match lyricsToDisplay with
      | [] => (cur, nxt)
      | e :: rest => (e.2, (rest.head?.map Prod.snd).getD nxt)
    else (cur, nxt)
  match lyricsToDisplay.getLast? with
  | some lastE => if pos ≥ lastE.1 then (p1.1, []) else p1
  | none => p1

/-! ## LRC timestamp parsing (lyrics.py `parse_lrc`, lines 99-134) -/

/-- Split a string into lines at the newline character
(Python `lrc_content.split('\n')`). -/
def splitLines (s : Str) : List Str := s.splitOn '\n'

/-- Decimal digit test, Python regex `\d` on the data at hand. -/
def isDig (c : Char) : Bool := '0' ≤ c && c ≤ '9'

/-- Numeric value of a list of decimal digits (Python `int` on the
all-digit strings captured by the regexes of `parse_lrc`). -/
def digitsToNat (ds : Str) : Nat :=
  ds.foldl (fun acc c => acc * 10 + (c.toNat - '0'.toNat)) 0

/-- The regex `re.match(r'\[offset:([+-]?\d+)\]', line)` of lyrics.py
line 110: an anchored prefix `[offset:` followed by an optionally signed
digit run and `]`; returns the signed offset in milliseconds. -/
def parseOffsetPrefix (line : Str) : Option Int :=
  match line with
  | '[' :: 'o' :: 'f' :: 'f' :: 's' :: 'e' :: 't' :: ':' :: rest =>
    let (sign, rest2) :=
      match rest with
      | '+' :: r => ((1 : Int), r)
      | '-' :: r => ((-1 : Int), r)
      | r => ((1 : Int), r)
    let ds := rest2.takeWhile isDig
    match rest2.drop ds.length with
    | ']' :: _ => if ds = [] then none else some (sign * digitsToNat ds)
    | _ => none
  | _ => none

/-- One attempt to match the tag regex
`\[(\d{2}):(\d{2})\.?(\d{0,3})?\]` at the head of `l`: on success the
pair of captured (minutes, seconds, fraction digits) and the remainder
after the closing bracket. -/
def matchTagAt (l : Str) : Option ((Nat × Nat × Str) × Str) :=
  match l with
  | '[' :: m1 :: m2 :: ':' :: s1 :: s2 :: rest =>
    if isDig m1 && isDig m2 && isDig s1 && isDig s2 then
      let mm := digitsToNat [m1, m2]
      let ss := digitsToNat [s1, s2]
      let rest2 := match rest with
                   | '.' :: r => r
                   | r => r
      let ds := rest2.takeWhile isDig
      if ds.length ≤ 3 then
        match rest2.drop ds.length with
        | ']' :: r2 => some ((mm, ss, ds), r2)
        | _ => none
      else none
    else none
  | _ => none

/-- Fueled scan implementing `re.findall` of the timestamp-tag regex:
try a match at every position, consuming matches left to right. -/
def scanTagsF : Nat → Str → List (Nat × Nat × Str)
  | 0, _ => []
  | _ + 1, [] => []
  | fuel + 1, l@(_ :: t) =>
    match matchTagAt l with
    | some (tag, rest) => tag :: scanTagsF fuel rest
    | none => scanTagsF fuel t

/-- `re.findall(r'\[(\d{2}):(\d{2})\.?(\d{0,3})?\]', line)` of
lyrics.py line 116. -/
def scanTags (line : Str) : List (Nat × Nat × Str) := scanTagsF line.length line

/-- `re.search(r'\]([^\[]*)$', line)` of lyrics.py line 117: the text
after the leftmost `]` that is followed by no further `[`; stripped, and
empty when there is no match (lyrics.py line 118). -/
def extractLyricText (line : Str) : Str :=
  match line with
  | [] => []
  | ']' :: t => if t.contains '[' then extractLyricText t else pyStrip t
  | _ :: t => extractLyricText t

/-- `re.match(r'\[[a-zA-Z]+:.*\]', line)` of lyrics.py line 129: an
anchored `[`, at least one ASCII letter, a colon, and a `]` somewhere
later in the line. -/
def isMetaDirective (line : Str) : Bool :=
  match line with
  | '[' :: rest =>
    let letters := rest.takeWhile (fun c => c.isAlpha)
    match rest.drop letters.length with
    | ':' :: r => letters ≠ [] && r.contains ']'
    | _ => false
  | _ => false

/-- lyrics.py line 125: `int(milliseconds_str.ljust(3, '0')[:3])` with 0
for an empty capture. -/
def padMs (ds : Str) : Nat :=
  if ds = [] then 0 else digitsToNat ((ds ++ ['0', '0', '0']).take 3)

/-- lyrics.py lines 126-127: timestamp of one tag, shifted by the
current offset and clamped at zero. -/
def tagTimestamp (offset : Int) (tag : Nat × Nat × Str) : Int :=
  let t : Int := ((tag.1 * 60 + tag.2.1) * 1000 + padMs tag.2.2 : Nat) - offset
  if t < 0 then 0 else t

/-- One line of the `parse_lrc` loop body (lyrics.py lines 106-131),
acting on the (current offset, accumulated entries) state. -/
def lrcStep (st : Int × List (Int × Str)) (rawLine : Str) :
    Int × List (Int × Str) :=
  let line := pyStrip rawLine
  if line = [] then st
  else
    match parseOffsetPrefix line with
    | some off => (off, st.2)
    | none =>
      let tags := scanTags line
      let text := extractLyricText line
      if text ≠ [] then
        (st.1, st.2 ++ tags.map (fun tag => (tagTimestamp st.1 tag, text)))
      else if tags = [] && line ≠ [] && !isMetaDirective line then
        match st.2.getLast? with
        | some (prevTs, prevTxt) =>
          if prevTxt = line then st
          else (st.1, st.2 ++ [(prevTs, line)])
        | none => (st.1, st.2 ++ [(0, line)])
      else st

/-- The entries accumulated by `parse_lrc` before the final sort. -/
def lrcRawEntries (content : Str) : List (Int × Str) :=
  ((splitLines content).foldl lrcStep (0, [])).2

/-- Stable insertion of one entry into a timestamp-sorted list: walks
past every entry with a smaller-or-equal timestamp. -/
def insertByTs (p : Int × Str) : List (Int × Str) → List (Int × Str)
  | [] => [p]
  | q :: rest => if q.1 ≤ p.1 then q :: insertByTs p rest else p :: q :: rest

/-- Stable sort by timestamp (`lyrics.sort(key=lambda x: x[0])`,
lyrics.py line 133): left-to-right insertion after existing ties. -/
def sortByTs (l : List (Int × Str)) : List (Int × Str) :=
  l.foldl (fun acc p => insertByTs p acc) []

/-- lyrics.py lines 99-134: `parse_lrc`. -/
def parse_lrc (content : Str) : List (Int × Str) :=
  if content = [] then [] else sortByTs (lrcRawEntries content)

/-! ## Session cache store (lyrics.py `load_song_info_cache`, lines 215-237) -/

/-- JSON values as produced by `json.load`. -/
inductive JVal where
  | null
  | bool (b : Bool)
  | num (n : Int)
  | str (s : Str)
  | arr (xs : List JVal)
  | obj (kvs : List (Str × JVal))

/-- On-disk state of `song_info_cache.json`: absent, unparseable
content (raising `json.JSONDecodeError`/`IOError`), or a parsed value. -/
inductive FileContent where
  | absent
  | invalid
  | valid (j : JVal)

/-- Python `key in cache_data` for the loaded JSON value: key lookup for
dicts, element equality for lists, substring test for strings, and a
`TypeError` for the remaining types. -/
def jContains (j : JVal) (key : Str) : Except Str Bool :=
  match j with
  | .obj kvs => .ok (kvs.any (fun p => p.1 = key))
  | .arr xs =>
    .ok (xs.any (fun x => match x with
                          | .str s => s = key
                          | _ => false))
  | .str s => .ok (containsInfix key s)
  | _ => .error (cs "TypeError")

/-- Python `cache_data[key] = v` for the loaded JSON value: only dicts
support string-keyed assignment; everything else raises `TypeError`. -/
def jSetItem (j : JVal) (key : Str) (v : JVal) : Except Str JVal :=
  match j with
  | .obj kvs =>
    .ok (.obj (if kvs.any (fun p => p.1 = key) then
                 kvs.map (fun p => if p.1 = key then (p.1, v) else p)
               else kvs ++ [(key, v)]))
  | _ => .error (cs "TypeError")

/-- The `default_keys` dictionary of lyrics.py lines 222-225 (equal to
the reset value of lines 235-237), in source order. -/
def defaultCacheEntries : List (Str × JVal) :=
  [(cs "title", .null), (cs "artist", .null), (cs "qq_song_mid", .null),
   (cs "lyrics_file_path", .null), (cs "lyrics_parsed_content", .arr []),
   (cs "last_fetched_timestamp", .num 0), (cs "playerctl_track_id", .null),
   (cs "status", .str (cs "stopped"))]

/-- The `for key, default_value in default_keys.items()` loop of
lyrics.py lines 226-228, filling missing keys. -/
def fillDefaults (j : JVal) : List (Str × JVal) → Except Str JVal
  | [] => .ok j
  | (k, d) :: rest =>
    match jContains j k with
    | .error e => .error e
    | .ok true => fillDefaults j rest
    | .ok false =>
      match jSetItem j k d with
      | .error e => .error e
      | .ok j2 => fillDefaults j2 rest

/-- lyrics.py lines 215-237: `load_song_info_cache`.  The result pairs
the returned value with the on-disk state afterwards; an uncaught Python
exception surfaces as `Except.error`. -/
def load_song_info_cache (fc : FileContent) : Except Str (JVal × FileContent) :=
  match fc with
  | .absent => .ok (.obj defaultCacheEntries, .absent)
  | .invalid => .ok (.obj defaultCacheEntries, .absent)
  | .valid j =>
    match fillDefaults j defaultCacheEntries with
    | .ok j2 => .ok (j2, .valid j)
    | .error e => .error e

/-! ## SHA-1 (hashlib.sha1 ... hexdigest(), used by the sanitizers'
fallback branches) -/

/-- Truncation to a 32-bit word. -/
def w32 (n : Nat) : Nat := n % 4294967296

/-- 32-bit left rotation of a word. -/
def rotl32 (k n : Nat) : Nat := (n * 2 ^ k) % 4294967296 + n / 2 ^ (32 - k)

/-- UTF-8 encoding of an embedded string (`str.encode('utf-8')`). -/
def utf8Bytes (s : Str) : List Nat :=
  (s.map (fun c => (String.utf8EncodeChar c).map (fun b => b.toNat))).flatten

/-- Big-endian byte expansion of a number into `k` bytes. -/
def beBytes (k n : Nat) : List Nat :=
  (List.range k).map (fun i => n / 2 ^ (8 * (k - 1 - i)) % 256)

/-- SHA-1 message padding: 0x80, zeros to 56 mod 64, 8-byte bit length. -/
def sha1Pad (msg : List Nat) : List Nat :=
  msg ++ [128] ++ List.replicate ((119 - msg.length % 64) % 64) 0 ++
    beBytes 8 (msg.length * 8)

/-- Fueled split into 64-byte chunks. -/
def chunks64 : Nat → List Nat → List (List Nat)
  | 0, _ => []
  | _ + 1, [] => []
  | fuel + 1, l => l.take 64 :: chunks64 fuel (l.drop 64)

/-- Fueled grouping of bytes into big-endian 32-bit words. -/
def bytesToWords : Nat → List Nat → List Nat
  | 0, _ => []
  | _ + 1, [] => []
  | fuel + 1, l =>
    ((l.take 4).foldl (fun acc b => acc * 256 + b) 0) :: bytesToWords fuel (l.drop 4)

/-- SHA-1 message-schedule extension of 16 words to 80. -/
def sha1Extend (w : List Nat) : List Nat :=
  (List.range 64).foldl
    (fun acc i =>
      acc ++ [rotl32 1 (Nat.xor (Nat.xor (acc.getD (i + 13) 0) (acc.getD (i + 8) 0))
                               (Nat.xor (acc.getD (i + 2) 0) (acc.getD i 0)))])
    w

/-- SHA-1 round function. -/
def sha1F (t b c d : Nat) : Nat :=
  if t < 20 then Nat.lor (Nat.land b c) (Nat.land (4294967295 - b) d)
  else if t < 40 then Nat.xor b (Nat.xor c d)
  else if t < 60 then Nat.lor (Nat.lor (Nat.land b c) (Nat.land b d)) (Nat.land c d)
  else Nat.xor b (Nat.xor c d)

/-- SHA-1 round constants. -/
def sha1K (t : Nat) : Nat :=
  if t < 20 then 1518500249
  else if t < 40 then 1859775393
  else if t < 60 then 2400959708
  else 3395469782

/-- One SHA-1 round acting on the five-word state. -/
def sha1Round (w : List Nat) (st : Nat × Nat × Nat × Nat × Nat) (t : Nat) :
    Nat × Nat × Nat × Nat × Nat :=
  let (a, b, c, d, e) := st
  (w32 (rotl32 5 a + sha1F t b c d + e + sha1K t + w.getD t 0),
   a, rotl32 30 b, c, d)

/-- One 64-byte chunk folded into the running hash state. -/
def sha1Chunk (h : Nat × Nat × Nat × Nat × Nat) (chunk : List Nat) :
    Nat × Nat × Nat × Nat × Nat :=
  let w := sha1Extend (bytesToWords chunk.length chunk)
  let st := (List.range 80).foldl (sha1Round w) h
  (w32 (h.1 + st.1), w32 (h.2.1 + st.2.1), w32 (h.2.2.1 + st.2.2.1),
   w32 (h.2.2.2.1 + st.2.2.2.1), w32 (h.2.2.2.2 + st.2.2.2.2))

/-- Hexadecimal digit characters. -/
def hexDigitChar (n : Nat) : Char := (cs "0123456789abcdef").getD (n % 16) '0'

/-- Lower-case hexadecimal rendering of a 32-bit word. -/
def hex32 (n : Nat) : Str :=
  (List.range 8).map (fun i => hexDigitChar (n / 2 ^ (4 * (7 - i))))

/-- `hashlib.sha1(bytes).hexdigest()`. -/
def sha1HexDigest (msg : List Nat) : Str :=
  let padded := sha1Pad msg
  let h := (chunks64 padded.length padded).foldl sha1Chunk
    (1732584193, 4023233417, 2562383102, 271733878, 3285377520)
  hex32 h.1 ++ hex32 h.2.1 ++ hex32 h.2.2.1 ++ hex32 h.2.2.2.1 ++ hex32 h.2.2.2.2

/-! ## Filename sanitization (lyrics.py lines 83-96, player.py lines 99-113) -/

/-- UTF-8 byte length of an embedded string. -/
def utf8Len (s : Str) : Nat := (s.map Char.utf8Size).sum

/-- Fueled version of the byte-limit truncation loop
(`while len(name.encode()) > 200: name = name[:-1]`). -/
def truncF : Nat → Str → Str
  | 0, s => s
  | n + 1, s => if utf8Len s ≤ 200 then s else truncF n s.dropLast

/-- The 200-byte truncation loop shared by both sanitizers. -/
def truncate200 (s : Str) : Str := truncF s.length s

/-- Fueled replacement of every maximal run of characters satisfying `p`
by the single character `rep` (Python `re.sub(cls + '+', rep, s)`). -/
def collapseRunsF (p : Char → Bool) (rep : Char) : Nat → Str → Str
  | 0, _ => []
  | _ + 1, [] => []
  | n + 1, c :: rest =>
    if p c then rep :: collapseRunsF p rep n (rest.dropWhile p)
    else c :: collapseRunsF p rep n rest

/-- Run collapsing with enough fuel for the whole string. -/
def collapseRuns (p : Char → Bool) (rep : Char) (s : Str) : Str :=
  collapseRunsF p rep s.length s

/-- The character class `[\\:*?"<>|]` removed by lyrics.py line 85. -/
def lyricsRemovedChar (c : Char) : Bool :=
  c = '\\' || c = ':' || c = '*' || c = '?' || c = '"' || c = '<' || c = '>' || c = '|'

/-- lyrics.py lines 83-96: `sanitize_filename`. -/
def sanitize_filename (name0 : Str) : Str :=
  let n1 := name0.map (fun c => if c = '/' then '_' else c)
  let n2 := n1.filter (fun c => !lyricsRemovedChar c)
  let name := pyStrip (collapseRuns pyIsSpace ' ' n2)
  let originalLen := name.length
  let name2 := pyStrip (truncate200 name)
  if name2 = [] ∧ originalLen > 0 then (sha1HexDigest (utf8Bytes name2)).take 10
  else if name2 = [] then cs "_empty_title_"
  else name2

/-- The character class `[\x00-\x1f<>:"/\\|?*]` replaced by
player.py line 102. -/
def playerBadChar (c : Char) : Bool :=
  c.toNat ≤ 31 || c = '<' || c = '>' || c = ':' || c = '"' || c = '/' ||
  c = '\\' || c = '|' || c = '?' || c = '*'

/-- The strip set of `sanitized.strip(' ' + '.' + '_')`
(player.py line 104 with the default replacement character). -/
def playerStripChar (c : Char) : Bool := c = ' ' || c = '.' || c = '_'

/-- Python `s.strip(' ._')`. -/
def stripPlayerSet (s : Str) : Str :=
  ((s.dropWhile playerStripChar).reverse.dropWhile playerStripChar).reverse

/-- player.py lines 99-113: `_sanitize_filename` with its default
replacement character `'_'` (the only one used by its callers). -/
def player_sanitize_filename (nameStr : Str) : Str :=
  if nameStr = [] then []
  else
    let s1 := nameStr.map (fun c => if playerBadChar c then '_' else c)
    let s2 := collapseRuns (fun c => c = '_') '_' s1
    let s3 := stripPlayerSet s2
    let originalLen := s3.length
    let s4 := truncate200 s3
    if s4 = [] ∧ originalLen > 0 then (sha1HexDigest (utf8Bytes nameStr)).take 16
    else if s4 = [] then cs "_empty_metadata_"
    else s4

/-! ## Lyrics file path (lyrics.py `get_lyrics_file_path`, lines 136-142) -/

/-- The filename component built by `get_lyrics_file_path`. -/
def lyricsFileName (title artist : Str) : Str :=
  let safeTitle := sanitize_filename title
  let safeArtist := sanitize_filename artist
  let filename :=
    if safeArtist ≠ [] then safeArtist ++ cs " - " ++ safeTitle ++ cs ".lrc"
    else safeTitle ++ cs ".lrc"
  if safeTitle = [] ∧ safeArtist = [] then cs "unknown_song.lrc" else filename

/-- `os.path.join(dir, fn)` for the shapes arising here: an absolute
`fn` replaces `dir`, otherwise the two are joined with a slash. -/
def joinPath (dir fn : Str) : Str :=
  if fn.head? = some '/' then fn else dir ++ '/' :: fn

/-- lyrics.py lines 136-142: `get_lyrics_file_path`, with the cache
directory as a parameter. -/
def get_lyrics_file_path (lyricsDir title artist : Str) : Str :=
  joinPath lyricsDir (lyricsFileName title artist)

/-! ## Album-art worker entry (player.py `process_album_art`,
lines 140-166): the decision gate before any fetch logic runs. -/

/-- The ambient world read by the head of `process_album_art`:
existence of the per-track cache file, of the `current_song_art`
symlink, the computed `symlink_is_correct_and_valid` verdict, the
globals `last_known_art_url`, `last_art_operation_timestamp`,
`last_processed_mpris_track_id_global`, and the current time. -/
structure ArtEnv where
  fileExists : Bool
  symlinkExists : Bool
  symlinkValid : Bool
  lastKnownArtUrl : Option Str
  now : Int
  lastArtOperationTimestamp : Int
  lastProcessedTrackId : Option Str
deriving DecidableEq, Repr

/-- How the head of `process_album_art` exits (for a track with a
non-empty sanitized filename base). -/
inductive ArtStep where
  | reuseReturn
  | cooldownReturn
  | clearReturn
  | continueFetch
deriving DecidableEq, Repr

/-- Python falsiness of the `art_url_param` argument. -/
def urlFalsy (u : Option Str) : Bool :=
  match u with
  | none => true
  | some s => s = []

/-- player.py lines 151-155: the reuse guard of `process_album_art`
(cache file present, URL and track context unchanged, pointer already
valid) under which the function returns touching nothing. -/
def artReuseCond (e : ArtEnv) (artUrl trackId : Option Str) : Bool :=
  e.fileExists && decide (artUrl = e.lastKnownArtUrl) &&
  decide (trackId = e.lastProcessedTrackId) && e.symlinkValid

/-- player.py lines 157-159: the cooldown guard returns early exactly
when the cooldown window has not elapsed and the cache file is absent. -/
def artCooldownSkipCond (e : ArtEnv) : Bool :=
  decide (e.now - e.lastArtOperationTimestamp < 3) && !e.fileExists

/-- player.py lines 140-166: the early-return structure of
`process_album_art` once the sanitized filename base is non-empty.
`reuseReturn` is lines 151-155 (nothing touched), `cooldownReturn` is
lines 157-159 (cooldown active and no cached file: return untouched),
`clearReturn` is lines 161-166 (empty URL: remove the symlink if it
exists and return), `continueFetch` is the rest of the function. -/
def process_album_art_gate (e : ArtEnv) (artUrl trackId : Option Str) : ArtStep :=
  if artReuseCond e artUrl trackId then .reuseReturn
  else if artCooldownSkipCond e then .cooldownReturn
  else if urlFalsy artUrl then .clearReturn
  else .continueFetch

/-- Whether the run removed the `current_song_art` pointer: only the
empty-URL branch does so, and only when the pointer exists. -/
def artPointerRemoved (e : ArtEnv) (step : ArtStep) : Bool :=
  step = ArtStep.clearReturn && e.symlinkExists

/-! ## Theorems -/

/-- A cleared session is never "active": its status is "stopped" and it
has no title, so both clear-and-emit guards reject it. -/
theorem activeSession_clear (s : SongInfo) :
    activeSession (clearSongInfo s) = false := by
  simp [activeSession, clearSongInfo, titleTruthy]

/-- C6: a stop/absence standalone line delivered while a prior active
session is cached clears the state and emits exactly one stopped-state
snapshot with one cache save; delivering the same line again to the
resulting state mutates nothing, saves nothing and emits nothing,
because the clear-and-emit path runs only when the cached status is not
"stopped" or a cached title exists. -/
theorem claim_C6_stop_line_idempotent (line : Str) (st : LoopState)
    (hstop : isStopLine line = true) (hact : activeSession st.cache = true) :
    handleStandaloneLine line st =
      (⟨clearSongInfo st.cache, none⟩,
       [⟨cs "No Media", cs "Player stopped or not running", cs "offline"⟩], 1) ∧
    handleStandaloneLine line ⟨clearSongInfo st.cache, none⟩ =
      (⟨clearSongInfo st.cache, none⟩, [], 0) := by
  constructor
  · simp [handleStandaloneLine, hstop, hact]
  · simp [handleStandaloneLine, hstop, activeSession_clear]

/-- Witness for C6: the literal standalone line "Stopped" against a
playing cached session. -/
theorem claim_C6_witness :
    handleStandaloneLine (cs "Stopped")
        ⟨⟨some (cs "A Song"), some (cs "A Band"), none, none, [], 0,
          some (cs "id1"), cs "playing"⟩, some (cs "id1")⟩ =
      (⟨clearSongInfo ⟨some (cs "A Song"), some (cs "A Band"), none, none, [],
          0, some (cs "id1"), cs "playing"⟩, none⟩,
       [⟨cs "No Media", cs "Player stopped or not running", cs "offline"⟩], 1) ∧
    handleStandaloneLine (cs "Stopped")
        ⟨clearSongInfo ⟨some (cs "A Song"), some (cs "A Band"), none, none, [],
          0, some (cs "id1"), cs "playing"⟩, none⟩ =
      (⟨clearSongInfo ⟨some (cs "A Song"), some (cs "A Band"), none, none, [],
          0, some (cs "id1"), cs "playing"⟩, none⟩, [], 0) :=
  claim_C6_stop_line_idempotent (cs "Stopped") _ (by decide) (by decide)

/-- C1: for every liveness-probe run after a readline timeout, (1) a
probe completing with non-zero exit or stop/absence stdout clears the
session and emits one snapshot with one save when the cached state was
active, (2) does nothing at all when it was not, (3) a probe completing
with any other output leaves the state untouched and emits no snapshot,
(4) an unexpected exception during the probe leaves the state untouched,
and (5) a stop-indicating probe outcome repeated on a consecutive
timeout without an intervening state change is a no-op, so the state is
cleared exactly once. -/
theorem claim_C1_liveness_probe (rc : Int) (raw : Str) (st : LoopState) :
    (probeStopped rc (toLowerStr (pyStrip raw)) = true →
      activeSession st.cache = true →
      handleReadTimeout (.completed rc raw) st =
        (⟨clearSongInfo st.cache, none⟩,
         [⟨cs "No Media", cs "Player stopped or not responding", cs "offline"⟩], 1)) ∧
    (probeStopped rc (toLowerStr (pyStrip raw)) = true →
      activeSession st.cache = false →
      handleReadTimeout (.completed rc raw) st = (st, [], 0)) ∧
    (probeStopped rc (toLowerStr (pyStrip raw)) = false →
      handleReadTimeout (.completed rc raw) st = (st, [], 0)) ∧
    ((handleReadTimeout .raised st).1 = st) ∧
    (probeStopped rc (toLowerStr (pyStrip raw)) = true →
      handleReadTimeout (.completed rc raw)
          (handleReadTimeout (.completed rc raw) st).1 =
        ((handleReadTimeout (.completed rc raw) st).1, [], 0)) := by
  refine ⟨?_, ?_, ?_, ?_, ?_⟩
  · intro hs ha
    simp [handleReadTimeout, hs, ha]
  · intro hs ha
    simp [handleReadTimeout, hs, ha]
  · intro hs
    simp [handleReadTimeout, hs]
  · simp [handleReadTimeout]
  · intro hs
    by_cases ha : activeSession st.cache = true
    · simp [handleReadTimeout, hs, ha, activeSession_clear]
    · simp only [Bool.not_eq_true] at ha
      simp [handleReadTimeout, hs, ha]

/-- Witness for C1: a probe that exits 1 with empty stdout against a
playing cached session. -/
theorem claim_C1_witness :
    (probeStopped 1 (toLowerStr (pyStrip [])) = true →
      activeSession (⟨⟨some (cs "A Song"), none, none, none, [], 0, none,
          cs "playing"⟩, none⟩ : LoopState).cache = true →
      handleReadTimeout (.completed 1 [])
          ⟨⟨some (cs "A Song"), none, none, none, [], 0, none, cs "playing"⟩, none⟩ =
        (⟨clearSongInfo ⟨some (cs "A Song"), none, none, none, [], 0, none,
            cs "playing"⟩, none⟩,
         [⟨cs "No Media", cs "Player stopped or not responding", cs "offline"⟩], 1)) ∧
    probeStopped 1 (toLowerStr (pyStrip [])) = true ∧
    activeSession ⟨some (cs "A Song"), none, none, none, [], 0, none,
        cs "playing"⟩ = true :=
  ⟨(claim_C1_liveness_probe 1 []
      ⟨⟨some (cs "A Song"), none, none, none, [], 0, none, cs "playing"⟩, none⟩).1,
   by decide, by decide⟩

/-- Looking a key up after a dict assignment: the assigned key now maps
to the new value, every other key is untouched. -/
theorem dictGet_dictSet (d : List (Str × Str)) (k v k' : Str) :
    dictGet (dictSet d k v) k' = if k' = k then some v else dictGet d k' := by
  unfold dictSet dictGet
  by_cases hany : d.any (fun p => p.1 = k) = true
  · simp only [hany, if_true]
    rw [List.find?_map]
    by_cases hk : k' = k
    · subst hk
      have hpf : ((fun p : Str × Str => decide (p.1 = k')) ∘
          (fun p => if p.1 = k' then (p.1, v) else p)) =
          (fun p : Str × Str => decide (p.1 = k')) := by
        funext p
        by_cases h : p.1 = k' <;> simp [h]
      rw [hpf]
      rcases (List.any_eq_true).mp hany with ⟨x, hx, hpx⟩
      cases hf : List.find? (fun p : Str × Str => decide (p.1 = k')) d with
      | none =>
        exact absurd hpx ((List.find?_eq_none).mp hf x hx)
      | some p =>
        have hp : p.1 = k' := by simpa using List.find?_some hf
        simp [hp]
    · have hpf : ((fun p : Str × Str => decide (p.1 = k')) ∘
          (fun p => if p.1 = k then (p.1, v) else p)) =
          (fun p : Str × Str => decide (p.1 = k')) := by
        funext p
        by_cases h : p.1 = k <;> simp [h]
      rw [hpf]
      cases hf : List.find? (fun p : Str × Str => decide (p.1 = k')) d with
      | none => simp [hk]
      | some p =>
        have hp : p.1 = k' := by simpa using List.find?_some hf
        have hpk : ¬p.1 = k := by rw [hp]; exact hk
        simp [hk, hpk]
  · rw [Bool.not_eq_true] at hany
    simp only [hany, Bool.false_eq_true, if_false]
    rw [List.find?_append]
    by_cases hk : k' = k
    · subst hk
      have hnone : List.find? (fun p : Str × Str => decide (p.1 = k')) d = none := by
        rw [List.find?_eq_none]
        intro x hx
        simpa using (List.any_eq_false.mp hany) x hx
      simp [hnone]
    · have hone : List.find? (fun p : Str × Str => decide (p.1 = k')) [(k, v)] = none := by
        rw [List.find?_eq_none]
        intro x hx
        have hx2 : x = (k, v) := by simpa using hx
        subst hx2
        simp only [decide_eq_true_eq]
        exact fun h => hk h.symm
      simp [hone, hk]

/-- Last element of a cons in terms of the tail. -/
theorem getLast?_cons_or {α : Type} (x : α) (xs : List α) :
    (x :: xs).getLast? = xs.getLast?.or (some x) := by
  have h : ([x] ++ xs).getLast? = xs.getLast?.or ([x] : List α).getLast? :=
    List.getLast?_append
  simpa using h

/-- Unfolding of the last-write-wins value over a leading line. -/
theorem lastWriteWins_cons (line : Str) (rest : List Str) (k : Str) :
    lastWriteWins (line :: rest) k =
      (lastWriteWins rest k).or
        (match parseBlockLine line with
         | some p => if p.1 = k then some p.2 else none
         | none => none) := by
  unfold lastWriteWins
  rw [List.filterMap_cons]
  cases hp : parseBlockLine line with
  | none => simp
  | some p =>
    by_cases hk : p.1 = k
    · rw [List.filter_cons]
      have hdec : decide (p.1 = k) = true := by simp [hk]
      rw [hdec]
      simp only [if_true]
      rw [getLast?_cons_or]
      cases hrest : (List.filter (fun q : Str × Str => decide (q.1 = k))
          (List.filterMap parseBlockLine rest)).getLast? with
      | none => simp [hrest, hk]
      | some q => simp [hrest, hk]
    · rw [List.filter_cons]
      simp [hk]

/-- The accumulator lookup after folding block lines from any starting
dictionary: the last written value wins, falling back to the start. -/
theorem runBlock_get_go : ∀ (lines : List Str) (d : List (Str × Str)) (k : Str),
    dictGet (lines.foldl processBlockLine d) k =
      (lastWriteWins lines k).or (dictGet d k)
  | [], d, k => by
    simp [lastWriteWins, dictGet]
  | line :: rest, d, k => by
    rw [List.foldl_cons, runBlock_get_go rest _ k, lastWriteWins_cons,
        Option.or_assoc]
    congr 1
    show dictGet (processBlockLine d line) k = _
    unfold processBlockLine
    cases hp : parseBlockLine line with
    | none => simp
    | some p =>
      rw [dictGet_dictSet]
      by_cases hk : p.1 = k
      · simp [hk]
      · have : ¬k = p.1 := fun h => hk h.symm
        simp [hk, this]

/-- C9: for lines delivered between the begin and end markers, (1) the
accumulator at block completion maps each key to the value of the last
`key:value` line written for it (keys and values stripped, lines split
on their first colon only), and (2) a line containing no colon leaves
the accumulator unchanged. -/
theorem claim_C9_last_write_wins :
    (∀ (lines : List Str) (k : Str),
      dictGet (runBlock lines) k = lastWriteWins lines k) ∧
    (∀ (d : List (Str × Str)) (line : Str), (∀ c ∈ line, c ≠ ':') →
      processBlockLine d line = d) := by
  constructor
  · intro lines k
    rw [runBlock, runBlock_get_go]
    simp [dictGet]
  · intro d line h
    have hdrop : line.dropWhile (fun c => c ≠ ':') = [] := by
      rw [List.dropWhile_eq_nil_iff]
      intro x hx
      simpa using h x hx
    have hp : parseBlockLine line = none := by
      unfold parseBlockLine
      rw [List.span_eq_take_drop, hdrop]
    simp [processBlockLine, hp]

/-- Witness for C9: a duplicate key with whitespace around it resolves
to the later value, and a colon-free line is a no-op. -/
theorem claim_C9_witness :
    dictGet (runBlock [cs "artist: X", cs " artist :Y", cs "title:T"]) (cs "artist") =
      lastWriteWins [cs "artist: X", cs " artist :Y", cs "title:T"] (cs "artist") ∧
    processBlockLine [(cs "artist", cs "X")] (cs "malformed line") =
      [(cs "artist", cs "X")] :=
  ⟨claim_C9_last_write_wins.1 _ _,
   claim_C9_last_write_wins.2 _ _ (by decide)⟩

/-- C5 evidence: `load_song_info_cache` is not exception-free over
arbitrary JSON content.  A cache file holding the valid JSON document
`[]` makes the key-filling loop execute `cache_data["title"] = None` on
a list, raising an uncaught `TypeError`; absence and unparseable
content, by contrast, are handled and yield the defaults. -/
theorem claim_C5_load_cache_raises :
    load_song_info_cache (.valid (.arr [])) = .error (cs "TypeError") ∧
    load_song_info_cache .absent = .ok (.obj defaultCacheEntries, .absent) ∧
    load_song_info_cache .invalid = .ok (.obj defaultCacheEntries, .absent) :=
  ⟨rfl, rfl, rfl⟩

/-- C8 counterexample: with an empty source URL, an existing pointer, a
missing cache file and an unelapsed cooldown window, `process_album_art`
returns at the cooldown guard without removing the existing "current"
pointer, contradicting the claim that the pointer is removed regardless
of cooldown state and cache-file existence. -/
theorem claim_C8_counterexample :
    process_album_art_gate
        ⟨false, true, false, some (cs "http://x/a.jpg"), 10, 9, some (cs "t1")⟩
        none (some (cs "t1")) = ArtStep.cooldownReturn ∧
    artPointerRemoved
        ⟨false, true, false, some (cs "http://x/a.jpg"), 10, 9, some (cs "t1")⟩
        (process_album_art_gate
          ⟨false, true, false, some (cs "http://x/a.jpg"), 10, 9, some (cs "t1")⟩
          none (some (cs "t1"))) = false ∧
    (⟨false, true, false, some (cs "http://x/a.jpg"), 10, 9, some (cs "t1")⟩ :
        ArtEnv).symlinkExists = true := by
  refine ⟨by decide, by decide, rfl⟩

/-- C8 amended: for an empty source URL the worker never reaches the
fetch logic, and it removes the existing "current" pointer and returns,
except in two carved-out early returns: the reuse guard (cache file
present, URL equal to the recorded one, track context unchanged, pointer
already valid) returns leaving the pointer in place, and the cooldown
guard (window not elapsed and cache file absent) returns without
touching the pointer. -/
theorem claim_C8_empty_url_amended (e : ArtEnv) (artUrl trackId : Option Str)
    (hurl : urlFalsy artUrl = true) :
    process_album_art_gate e artUrl trackId ≠ ArtStep.continueFetch ∧
    (artReuseCond e artUrl trackId = true →
      process_album_art_gate e artUrl trackId = ArtStep.reuseReturn) ∧
    (artReuseCond e artUrl trackId = false → artCooldownSkipCond e = true →
      process_album_art_gate e artUrl trackId = ArtStep.cooldownReturn) ∧
    (artReuseCond e artUrl trackId = false → artCooldownSkipCond e = false →
      process_album_art_gate e artUrl trackId = ArtStep.clearReturn ∧
      artPointerRemoved e (process_album_art_gate e artUrl trackId) =
        e.symlinkExists) := by
  refine ⟨?_, ?_, ?_, ?_⟩
  · intro hcont
    unfold process_album_art_gate at hcont
    by_cases h1 : artReuseCond e artUrl trackId = true
    · simp [h1] at hcont
    · by_cases h2 : artCooldownSkipCond e = true
      · simp [h1, h2] at hcont
      · simp [h1, h2, hurl] at hcont
  · intro h1
    simp [process_album_art_gate, h1]
  · intro h1 h2
    simp [process_album_art_gate, h1, h2]
  · intro h1 h2
    constructor
    · simp [process_album_art_gate, h1, h2, hurl]
    · simp [process_album_art_gate, h1, h2, hurl, artPointerRemoved]

/-- Witness for C8 amended: empty URL with elapsed cooldown and no
reuse conditions: the pointer is removed. -/
theorem claim_C8_witness :
    urlFalsy (none : Option Str) = true ∧
    artReuseCond ⟨false, true, false, none, 100, 0, none⟩ none none = false ∧
    artCooldownSkipCond ⟨false, true, false, none, 100, 0, none⟩ = false ∧
    (process_album_art_gate ⟨false, true, false, none, 100, 0, none⟩ none none =
        ArtStep.clearReturn ∧
      artPointerRemoved ⟨false, true, false, none, 100, 0, none⟩
          (process_album_art_gate ⟨false, true, false, none, 100, 0, none⟩
            none none) =
        (⟨false, true, false, none, 100, 0, none⟩ : ArtEnv).symlinkExists) :=
  ⟨by decide, by decide, by decide,
   (claim_C8_empty_url_amended ⟨false, true, false, none, 100, 0, none⟩ none none
      (by decide)).2.2.2 (by decide) (by decide)⟩

/-- C2 counterexample: a block whose track id is empty while the
last-processed id is non-empty, with matching title/artist, fresh
non-empty lyrics and an existing cache file.  The code refreshes (its
raw id comparison sees a change), while the claim's identity rule
(either id empty, so compare title and artist case-insensitively) sees
the same track and thus no reason to refresh. -/
theorem claim_C2_counterexample :
    should_fetch_new_lyrics
        [(cs "title", cs "Song"), (cs "artist", cs "Band"), (cs "track_id", cs "")]
        ⟨⟨some (cs "Song"), some (cs "Band"), none, some (cs "p.lrc"),
          [(0, cs "la")], 1000, some (cs "id1"), cs "playing"⟩, some (cs "id1")⟩
        true 2000 = true ∧
    claimShouldRefresh
        [(cs "title", cs "Song"), (cs "artist", cs "Band"), (cs "track_id", cs "")]
        ⟨⟨some (cs "Song"), some (cs "Band"), none, some (cs "p.lrc"),
          [(0, cs "la")], 1000, some (cs "id1"), cs "playing"⟩, some (cs "id1")⟩
        true 2000 = false := by
  refine ⟨by decide, by decide⟩

/-- C2 amended: for every completed block and session state, the code's
refresh decision equals: title non-empty AND (the raw current track id
differs from the last-processed one (with `None` distinct from every
string), or the current id is empty and the case-insensitive title or
artist differs from the cache, or stored lyrics are empty, or the cached
lyrics file no longer exists on disk, or more than 3600 s elapsed since
the last fetch). -/
theorem claim_C2_refresh_rule (d : List (Str × Str)) (st : LoopState)
    (disk : Bool) (now : Int) :
    should_fetch_new_lyrics d st disk now = amendedShouldRefresh d st disk now := by
  rw [Bool.eq_iff_iff]
  simp only [should_fetch_new_lyrics, amendedShouldRefresh, Bool.or_eq_true,
    Bool.and_eq_true]
  tauto

/-- Unfolding of one lyric-scan step. -/
theorem lyricScan_cons (pos ts : Int) (txt : Str) (rest : List (Int × Str))
    (cur nxt : Str) (found : Bool) :
    lyricScan pos ((ts, txt) :: rest) cur nxt found =
      if pos ≥ ts then
        lyricScan pos rest txt ((rest.head?.map Prod.snd).getD nxt) true
      else (cur, nxt, found) := rfl

/-- The lyric scan breaks immediately when the first entry (if any) lies
beyond the position. -/
theorem lyricScan_break (pos : Int) (l : List (Int × Str)) (cur nxt : Str)
    (found : Bool) (h : ∀ e, l.head? = some e → pos < e.1) :
    lyricScan pos l cur nxt found = (cur, nxt, found) := by
  cases l with
  | nil => rfl
  | cons e rest =>
    obtain ⟨ts, txt⟩ := e
    have he := h (ts, txt) rfl
    rw [lyricScan_cons]
    rw [if_neg (by simp only [] at he; omega)]

/-- Scanning a block of entries at or before the position followed by an
entry beyond it: the current line becomes the block's last text and the
next line the text of the entry where the scan breaks. -/
theorem lyricScan_take_cons (pos : Int) :
    ∀ (P : List (Int × Str)), P ≠ [] →
      ∀ (e : Int × Str) (R' : List (Int × Str)) (cur nxt : Str) (found : Bool),
      (∀ x ∈ P, x.1 ≤ pos) → pos < e.1 →
      lyricScan pos (P ++ e :: R') cur nxt found =
        ((P.getLast?.map Prod.snd).getD cur, e.2, true)
  | [], h, _, _, _, _, _, _, _ => absurd rfl h
  | [x], _, e, R', cur, nxt, found, hP, he => by
    obtain ⟨ts, txt⟩ := x
    have hx : ts ≤ pos := hP (ts, txt) (by simp)
    rw [List.cons_append, List.nil_append, lyricScan_cons, if_pos (by omega)]
    rw [lyricScan_break pos (e :: R') _ _ _ (by
      intro y hy
      simp only [List.head?_cons, Option.some.injEq] at hy
      rw [← hy]
      exact he)]
    simp
  | x :: y :: P'', _, e, R', cur, nxt, found, hP, he => by
    obtain ⟨ts, txt⟩ := x
    have hx : ts ≤ pos := hP (ts, txt) (by simp)
    rw [List.cons_append, lyricScan_cons, if_pos (by omega)]
    rw [lyricScan_take_cons pos (y :: P'') (by simp) e R' _ _ _
      (fun z hz => hP z (List.mem_cons_of_mem _ hz)) he]
    rw [List.getLast?_cons_cons]
    obtain ⟨z, hz⟩ := Option.isSome_iff_exists.mp
      (List.getLast?_isSome.mpr (by simp : (y :: P'') ≠ []))
    rw [hz]
    simp

/-- Scanning a list whose entries all lie at or before the position:
the current line becomes the final text and the scan reports success
(the next-line component is irrelevant to the caller because the
end-of-song fix-up overwrites it). -/
theorem lyricScan_all (pos : Int) :
    ∀ (P : List (Int × Str)), P ≠ [] → ∀ (cur nxt : Str) (found : Bool),
      (∀ x ∈ P, x.1 ≤ pos) →
      ∃ n, lyricScan pos P cur nxt found =
        ((P.getLast?.map Prod.snd).getD cur, n, true)
  | [], h, _, _, _, _ => absurd rfl h
  | [x], _, cur, nxt, found, hP => by
    obtain ⟨ts, txt⟩ := x
    have hx : ts ≤ pos := hP (ts, txt) (by simp)
    refine ⟨(([] : List (Int × Str)).head?.map Prod.snd).getD nxt, ?_⟩
    rw [lyricScan_cons, if_pos (by omega)]
    simp [lyricScan]
  | x :: y :: P'', _, cur, nxt, found, hP => by
    obtain ⟨ts, txt⟩ := x
    have hx : ts ≤ pos := hP (ts, txt) (by simp)
    obtain ⟨n, hn⟩ := lyricScan_all pos (y :: P'') (by simp) txt
      (((y :: P'').head?.map Prod.snd).getD nxt) true
      (fun z hz => hP z (List.mem_cons_of_mem _ hz))
    refine ⟨n, ?_⟩
    rw [lyricScan_cons, if_pos (by omega)]
    rw [hn, List.getLast?_cons_cons]
    obtain ⟨z, hz⟩ := Option.isSome_iff_exists.mp
      (List.getLast?_isSome.mpr (by simp : (y :: P'') ≠ []))
    rw [hz]
    simp

/-- The head of a dropWhile run fails the predicate. -/
theorem head?_dropWhile_false {α : Type} (p : α → Bool) :
    ∀ (l : List α) (a : α), (l.dropWhile p).head? = some a → p a = false
  | [], a, h => by simp [List.dropWhile] at h
  | x :: t, a, h => by
    by_cases hx : p x = true
    · rw [List.dropWhile_cons, if_pos hx] at h
      exact head?_dropWhile_false p t a h
    · rw [List.dropWhile_cons, if_neg hx] at h
      simp only [List.head?_cons, Option.some.injEq] at h
      rw [← h]
      exact Bool.not_eq_true _ ▸ hx

/-- When the leading take of entries at or before the position is empty,
the remainder is the whole list. -/
theorem dropWhile_of_takeWhile_nil {α : Type} (p : α → Bool) (l : List α)
    (h : l.takeWhile p = []) : l.dropWhile p = l := by
  cases l with
  | nil => rfl
  | cons x t =>
    by_cases hx : p x = true
    · rw [List.takeWhile_cons, if_pos hx] at h
      exact absurd h (by simp)
    · rw [List.dropWhile_cons, if_neg hx]

/-- C3: for a non-empty lyric sequence sorted ascending by timestamp and
any playback position, the displayed pair is: when some entry lies at or
before the position, the current line is the text of the last such entry
(the greatest timestamp not exceeding the position) and the next line is
the text of the following entry, empty when the position is at or past
the last entry; when the position precedes all entries, the current line
is the first entry's text and the next line the second entry's text. -/
theorem claim_C3_lyric_selection (L : List (Int × Str)) (pos : Int)
    (hsorted : L.Pairwise (fun a b => a.1 ≤ b.1)) (hne : L ≠ []) :
    (L.takeWhile (fun e => decide (e.1 ≤ pos)) = [] →
      select_lyric_line L pos =
        ((L.head?.map Prod.snd).getD [], (L.tail.head?.map Prod.snd).getD [])) ∧
    (L.takeWhile (fun e => decide (e.1 ≤ pos)) ≠ [] →
      select_lyric_line L pos =
        (((L.takeWhile (fun e => decide (e.1 ≤ pos))).getLast?.map Prod.snd).getD [],
         ((L.dropWhile (fun e => decide (e.1 ≤ pos))).head?.map Prod.snd).getD [])) := by
  constructor
  · intro hTW
    cases L with
    | nil => exact absurd rfl hne
    | cons x t =>
      obtain ⟨ts, txt⟩ := x
      have hx : decide ((ts, txt).1 ≤ pos) = false := by
        rw [List.takeWhile_cons] at hTW
        by_cases h : decide ((ts, txt).1 ≤ pos) = true
        · rw [if_pos h] at hTW
          exact absurd hTW (by simp)
        · exact Bool.not_eq_true _ ▸ h
      have hlt : pos < ts := by
        simp only [decide_eq_false_iff_not] at hx
        omega
      have hscan : lyricScan pos ((ts, txt) :: t) [] [] false = ([], [], false) :=
        lyricScan_break pos _ _ _ _ (by
          intro e he
          simp only [List.head?_cons, Option.some.injEq] at he
          rw [← he]
          exact hlt)
      obtain ⟨z, hz⟩ := Option.isSome_iff_exists.mp
        (List.getLast?_isSome.mpr (by simp : ((ts, txt) :: t) ≠ []))
      have hzmem : z ∈ (ts, txt) :: t := List.mem_of_mem_getLast? (by rw [hz]; rfl)
      have hzge : ts ≤ z.1 := by
        rcases List.mem_cons.mp hzmem with h | h
        · rw [h]
        · exact List.rel_of_pairwise_cons hsorted h
      simp only [select_lyric_line, hscan, hz]
      rw [if_neg (by omega)]
      simp
  · intro hTW
    set p := (fun e : Int × Str => decide (e.1 ≤ pos)) with hp
    set P := L.takeWhile p with hPdef
    set R := L.dropWhile p with hRdef
    have hmemP : ∀ x ∈ P, x.1 ≤ pos := by
      intro x hxm
      have := List.mem_takeWhile_imp hxm
      rw [hp] at this
      simpa using this
    have hL : L = P ++ R := (List.takeWhile_append_dropWhile p L).symm
    cases hR : R with
    | nil =>
      have hLP : L = P := by rw [hL, hR, List.append_nil]
      obtain ⟨z, hz⟩ := Option.isSome_iff_exists.mp
        (List.getLast?_isSome.mpr hne)
      have hzmem : z ∈ L := List.mem_of_mem_getLast? (by rw [hz]; rfl)
      have hzle : z.1 ≤ pos := hmemP z (hLP ▸ hzmem)
      obtain ⟨n, hn⟩ := lyricScan_all pos P hTW [] [] false hmemP
      have hscan : lyricScan pos L [] [] false =
          ((P.getLast?.map Prod.snd).getD [], n, true) := by
        rw [hLP]
        exact hn
      simp only [select_lyric_line, hscan, hz]
      rw [if_pos (by omega)]
      simp [hR]
    | cons e R' =>
      have hbreak : pos < e.1 := by
        have hfalse : p e = false := by
          refine head?_dropWhile_false p L e ?_
          rw [← hRdef, hR]
          rfl
        rw [hp] at hfalse
        simp only [decide_eq_false_iff_not] at hfalse
        omega
      have hscan : lyricScan pos L [] [] false =
          ((P.getLast?.map Prod.snd).getD [], e.2, true) := by
        rw [hL, hR]
        exact lyricScan_take_cons pos P hTW e R' [] [] false hmemP hbreak
      have hpairR : (e :: R').Pairwise (fun a b : Int × Str => a.1 ≤ b.1) := by
        rw [← hR, hRdef]
        exact List.Pairwise.sublist (List.dropWhile_sublist p) hsorted
      obtain ⟨z, hz⟩ := Option.isSome_iff_exists.mp
        (List.getLast?_isSome.mpr (by simp : (e :: R') ≠ []))
      have hzmem : z ∈ e :: R' := List.mem_of_mem_getLast? (by rw [hz]; rfl)
      have hzge : e.1 ≤ z.1 := by
        rcases List.mem_cons.mp hzmem with h | h
        · rw [h]
        · exact List.rel_of_pairwise_cons hpairR h
      have hlast : L.getLast? = some z := by
        rw [hL, hR, List.getLast?_append, hz]
        rfl
      simp only [select_lyric_line, hscan, hlast]
      rw [if_neg (by omega)]
      simp [hR]

/-- Witness for C3: the sequence [(0,"A"),(5000,"B"),(10000,"C")] gives
current "B" and next "C" at 6000 ms, and current "C" with empty next at
12000 ms. -/
theorem claim_C3_witness :
    select_lyric_line [(0, cs "A"), (5000, cs "B"), (10000, cs "C")] 6000 =
      (cs "B", cs "C") ∧
    select_lyric_line [(0, cs "A"), (5000, cs "B"), (10000, cs "C")] 12000 =
      (cs "C", []) := by
  constructor
  · have h := (claim_C3_lyric_selection
      [(0, cs "A"), (5000, cs "B"), (10000, cs "C")] 6000
      (by decide) (by decide)).2 (by decide)
    rw [h]
    decide
  · have h := (claim_C3_lyric_selection
      [(0, cs "A"), (5000, cs "B"), (10000, cs "C")] 12000
      (by decide) (by decide)).2 (by decide)
    rw [h]
    decide

/-- Membership in a stable insertion. -/
theorem mem_insertByTs (x b : Int × Str) :
    ∀ (l : List (Int × Str)), b ∈ insertByTs x l ↔ b = x ∨ b ∈ l
  | [] => by simp [insertByTs]
  | q :: rest => by
    rw [insertByTs]
    by_cases hq : q.1 ≤ x.1
    · rw [if_pos hq]
      rw [List.mem_cons, mem_insertByTs x b rest, List.mem_cons]
      tauto
    · rw [if_neg hq]
      simp [List.mem_cons]

/-- Stable insertion preserves sortedness by timestamp. -/
theorem insertByTs_pairwise (x : Int × Str) :
    ∀ (acc : List (Int × Str)),
      acc.Pairwise (fun a b => a.1 ≤ b.1) →
      (insertByTs x acc).Pairwise (fun a b => a.1 ≤ b.1)
  | [], _ => by simp [insertByTs]
  | q :: rest, h => by
    rcases List.pairwise_cons.mp h with ⟨hq2, hrest⟩
    rw [insertByTs]
    by_cases hq : q.1 ≤ x.1
    · rw [if_pos hq]
      refine List.pairwise_cons.mpr ⟨?_, insertByTs_pairwise x rest hrest⟩
      intro b hb
      rcases (mem_insertByTs x b rest).mp hb with hb | hb
      · rw [hb]; exact hq
      · exact hq2 b hb
    · rw [if_neg hq]
      refine List.pairwise_cons.mpr ⟨?_, h⟩
      intro b hb
      rcases List.mem_cons.mp hb with hb | hb
      · rw [hb]; omega
      · have := hq2 b hb
        omega

/-- Stable insertion into a sorted accumulator places the new entry
after every existing entry with its timestamp: per-timestamp filters
grow at the back. -/
theorem filter_insertByTs (x : Int × Str) (t : Int) :
    ∀ (acc : List (Int × Str)),
      acc.Pairwise (fun a b => a.1 ≤ b.1) →
      (insertByTs x acc).filter (fun q => decide (q.1 = t)) =
        (if x.1 = t then
          acc.filter (fun q => decide (q.1 = t)) ++ [x]
         else acc.filter (fun q => decide (q.1 = t)))
  | [], _ => by
    by_cases hx : x.1 = t <;> simp [insertByTs, List.filter, hx]
  | q :: rest, h => by
    rcases List.pairwise_cons.mp h with ⟨hq2, hrest⟩
    rw [insertByTs]
    by_cases hq : q.1 ≤ x.1
    · rw [if_pos hq]
      rw [List.filter_cons, List.filter_cons,
          filter_insertByTs x t rest hrest]
      by_cases hqt : q.1 = t <;> by_cases hxt : x.1 = t <;>
        simp [hqt, hxt]
    · rw [if_neg hq]
      by_cases hxt : x.1 = t
      · have hnone : (q :: rest).filter (fun q => decide (q.1 = t)) = [] := by
          rw [List.filter_eq_nil_iff]
          intro a ha
          rcases List.mem_cons.mp ha with ha | ha
          · rw [ha]; simp; omega
          · have := hq2 a ha; simp; omega
        rw [List.filter_cons]
        rw [if_pos (by simp [hxt])]
        rw [hnone, if_pos hxt]
        simp [hnone]
      · rw [List.filter_cons]
        rw [if_neg (by simp [hxt])]
        rw [if_neg hxt]

/-- The insertion-sort fold keeps the accumulator sorted. -/
theorem sortFold_pairwise :
    ∀ (l acc : List (Int × Str)),
      acc.Pairwise (fun a b => a.1 ≤ b.1) →
      (l.foldl (fun acc p => insertByTs p acc) acc).Pairwise
        (fun a b => a.1 ≤ b.1)
  | [], _, h => h
  | x :: rest, acc, h =>
    sortFold_pairwise rest (insertByTs x acc) (insertByTs_pairwise x acc h)

/-- The insertion-sort fold preserves the per-timestamp subsequences:
entries with equal timestamps stay in input order after the existing
ones (stability). -/
theorem sortFold_filter (t : Int) :
    ∀ (l acc : List (Int × Str)),
      acc.Pairwise (fun a b => a.1 ≤ b.1) →
      (l.foldl (fun acc p => insertByTs p acc) acc).filter
          (fun q => decide (q.1 = t)) =
        acc.filter (fun q => decide (q.1 = t)) ++
          l.filter (fun q => decide (q.1 = t))
  | [], acc, _ => by simp
  | x :: rest, acc, h => by
    rw [List.foldl_cons,
        sortFold_filter t rest (insertByTs x acc) (insertByTs_pairwise x acc h),
        filter_insertByTs x t acc h, List.filter_cons]
    by_cases hxt : x.1 = t
    · rw [if_pos hxt, if_pos (by simp [hxt])]
      simp
    · rw [if_neg hxt, if_neg (by simp [hxt])]

/-- The final sort of `parse_lrc` is sorted ascending by timestamp. -/
theorem sortByTs_pairwise (l : List (Int × Str)) :
    (sortByTs l).Pairwise (fun a b => a.1 ≤ b.1) :=
  sortFold_pairwise l [] (by simp)

/-- The final sort of `parse_lrc` is stable: per-timestamp filters are
unchanged from the pre-sort entry order. -/
theorem sortByTs_filter (l : List (Int × Str)) (t : Int) :
    (sortByTs l).filter (fun q => decide (q.1 = t)) =
      l.filter (fun q => decide (q.1 = t)) := by
  rw [sortByTs, sortFold_filter t l [] (by simp)]
  simp

/-- C4 counterexample: the line "Still] Hello" is non-empty, already
stripped, carries no timestamp tag, and differs from the preceding
entry's text "Hello", so the claim's continuation rule would append
(1000, "Still] Hello"); `parse_lrc` instead drops the line entirely,
because its bracket-free tail after the `]` ("Hello") is non-empty and
the tag loop then appends one entry per timestamp tag, of which there
are none. -/
theorem claim_C4_counterexample :
    scanTags (cs "Still] Hello") = [] ∧
    pyStrip (cs "Still] Hello") = cs "Still] Hello" ∧
    cs "Still] Hello" ≠ [] ∧
    cs "Still] Hello" ≠ cs "Hello" ∧
    parse_lrc (cs "[00:01.00]Hello\nStill] Hello") = [(1000, cs "Hello")] := by
  refine ⟨by decide, by decide, by decide, by decide, by decide⟩

/-- C4 amended: the fractional-part padding/truncation and the two
stated example parses hold, a leading offset directive shifts subsequent
timestamps down clamped at 0, and the result is sorted ascending by
timestamp and stable on input order for ties; the continuation rule is
narrowed to tag-less non-empty lines from which no trailing text after a
`]` can be extracted and which are not bracketed alphabetic directives
(and not offset directives): such a line is appended with the previous
entry's timestamp (or 0 if none) when its text differs from the
immediately preceding entry's text, and suppressed when identical. -/
theorem claim_C4_lrc_amended :
    parse_lrc (cs "[00:01.50]Hello\n[00:03]World") =
      [(1500, cs "Hello"), (3000, cs "World")] ∧
    parse_lrc (cs "[00:01.5]Hello") = [(1500, cs "Hello")] ∧
    parse_lrc (cs "[offset:500]\n[00:01.50]Hello\n[00:03]World") =
      [(1000, cs "Hello"), (2500, cs "World")] ∧
    parse_lrc (cs "[offset:2000]\n[00:01.50]Hello") = [(0, cs "Hello")] ∧
    (∀ (off : Int) (acc : List (Int × Str)) (line : Str),
      pyStrip line = line → line ≠ [] → parseOffsetPrefix line = none →
      scanTags line = [] → extractLyricText line = [] →
      isMetaDirective line = false →
      lrcStep (off, acc) line =
        match acc.getLast? with
        | some (prevTs, prevTxt) =>
          if prevTxt = line then (off, acc) else (off, acc ++ [(prevTs, line)])
        | none => (off, acc ++ [(0, line)])) ∧
    (∀ content : Str,
      (parse_lrc content).Pairwise (fun a b => a.1 ≤ b.1)) ∧
    (∀ (content : Str) (t : Int),
      (parse_lrc content).filter (fun q => decide (q.1 = t)) =
        (lrcRawEntries content).filter (fun q => decide (q.1 = t))) := by
  refine ⟨by decide, by decide, by decide, by decide, ?_, ?_, ?_⟩
  · intro off acc line hstrip hne hoff htags htext hdir
    simp only [lrcStep, hstrip, hoff, htags, htext, hdir]
    rw [if_neg hne]
    simp [hne]
  · intro content
    by_cases hc : content = []
    · simp [parse_lrc, hc]
    · rw [parse_lrc, if_neg hc]
      exact sortByTs_pairwise _
  · intro content t
    by_cases hc : content = []
    · subst hc
      rfl
    · rw [parse_lrc, if_neg hc, sortByTs_filter]

/-- Witness for C4: the continuation step at a concrete state, via the
amended rule: "Still Hello" after "[00:01.00]Hello" appends with
timestamp 1000, by direct application of the amended theorem. -/
theorem claim_C4_witness :
    lrcStep (0, [(1000, cs "Hello")]) (cs "Still Hello") =
      (0, [(1000, cs "Hello"), (1000, cs "Still Hello")]) := by
  have h := claim_C4_lrc_amended.2.2.2.2.1 0 [(1000, cs "Hello")]
    (cs "Still Hello") (by decide) (by decide) (by decide) (by decide)
    (by decide) (by decide)
  rw [h]
  decide

/-- Characters of a both-ends strip come from the original string. -/
theorem mem_of_mem_stripEnds {c : Char} {p : Char → Bool} {s : Str}
    (h : c ∈ ((s.dropWhile p).reverse.dropWhile p).reverse) : c ∈ s := by
  rw [List.mem_reverse] at h
  have h2 := List.Sublist.mem h (List.dropWhile_suffix p).sublist
  rw [List.mem_reverse] at h2
  exact List.Sublist.mem h2 (List.dropWhile_suffix p).sublist

/-- Characters of `pyStrip s` come from `s`. -/
theorem mem_of_mem_pyStrip {c : Char} {s : Str} (h : c ∈ pyStrip s) : c ∈ s :=
  mem_of_mem_stripEnds h

/-- Characters of `stripPlayerSet s` come from `s`. -/
theorem mem_of_mem_stripPlayerSet {c : Char} {s : Str}
    (h : c ∈ stripPlayerSet s) : c ∈ s :=
  mem_of_mem_stripEnds h

/-- Characters of a run-collapsed string come from the original or are
the replacement character. -/
theorem mem_of_mem_collapseRunsF {p : Char → Bool} {rep c : Char} :
    ∀ (n : Nat) (s : Str), c ∈ collapseRunsF p rep n s → c ∈ s ∨ c = rep
  | 0, s, h => by simp [collapseRunsF] at h
  | _ + 1, [], h => by simp [collapseRunsF] at h
  | n + 1, x :: rest, h => by
    rw [collapseRunsF] at h
    by_cases hx : p x = true
    · rw [if_pos hx] at h
      rcases List.mem_cons.mp h with h | h
      · right; exact h
      · rcases mem_of_mem_collapseRunsF n _ h with h | h
        · left
          exact List.mem_cons_of_mem _
            (List.Sublist.mem h (List.dropWhile_suffix p).sublist)
        · right; exact h
    · rw [if_neg hx] at h
      rcases List.mem_cons.mp h with h | h
      · left; rw [h]; exact List.mem_cons_self x rest
      · rcases mem_of_mem_collapseRunsF n rest h with h | h
        · left; exact List.mem_cons_of_mem _ h
        · right; exact h

/-- Characters of the byte-limit truncation come from the original. -/
theorem mem_of_mem_truncF {c : Char} :
    ∀ (n : Nat) (s : Str), c ∈ truncF n s → c ∈ s
  | 0, _, h => h
  | n + 1, s, h => by
    rw [truncF] at h
    by_cases hle : utf8Len s ≤ 200
    · rwa [if_pos hle] at h
    · rw [if_neg hle] at h
      exact List.Sublist.mem (mem_of_mem_truncF n _ h) (List.dropLast_sublist s)

/-- The byte-limit truncation yields a prefix of its input. -/
theorem truncF_prefix : ∀ (n : Nat) (s : Str), truncF n s <+: s
  | 0, s => List.prefix_refl s
  | n + 1, s => by
    rw [truncF]
    by_cases hle : utf8Len s ≤ 200
    · rw [if_pos hle]
    · rw [if_neg hle]
      have h1 : truncF n s.dropLast <+: s.dropLast := truncF_prefix n s.dropLast
      have h2 : s.dropLast <+: s := List.dropLast_prefix s
      exact h1.trans h2

/-- The byte-limit truncation never empties a non-empty string: a
single character is at most four UTF-8 bytes, far below the limit. -/
theorem truncF_ne_nil : ∀ (n : Nat) (s : Str), s ≠ [] → truncF n s ≠ []
  | 0, _, h => h
  | n + 1, s, h => by
    rw [truncF]
    by_cases hle : utf8Len s ≤ 200
    · rwa [if_pos hle]
    · rw [if_neg hle]
      refine truncF_ne_nil n s.dropLast ?_
      cases s with
      | nil => exact absurd rfl h
      | cons a t =>
        cases t with
        | nil =>
          exfalso
          apply hle
          have ha : utf8Len [a] = a.utf8Size := by simp [utf8Len]
          rw [ha]
          exact le_trans (Char.utf8Size_le_four a) (by norm_num)
        | cons b t' => simp [List.dropLast]

/-- Reversal preserves the UTF-8 byte length. -/
theorem utf8Len_reverse (s : Str) : utf8Len s.reverse = utf8Len s := by
  simp [utf8Len, List.map_reverse, List.sum_reverse]

/-- Dropping a whitespace-like prefix never grows the byte length. -/
theorem utf8Len_dropWhile_le (p : Char → Bool) :
    ∀ (s : Str), utf8Len (s.dropWhile p) ≤ utf8Len s
  | [] => le_refl _
  | x :: t => by
    rw [List.dropWhile_cons]
    by_cases hx : p x = true
    · rw [if_pos hx]
      refine le_trans (utf8Len_dropWhile_le p t) ?_
      simp [utf8Len]
    · rw [if_neg hx]

/-- Stripping never grows the byte length. -/
theorem utf8Len_pyStrip_le (s : Str) : utf8Len (pyStrip s) ≤ utf8Len s := by
  unfold pyStrip
  calc utf8Len ((s.dropWhile pyIsSpace).reverse.dropWhile pyIsSpace).reverse
      = utf8Len ((s.dropWhile pyIsSpace).reverse.dropWhile pyIsSpace) :=
        utf8Len_reverse _
    _ ≤ utf8Len (s.dropWhile pyIsSpace).reverse := utf8Len_dropWhile_le _ _
    _ = utf8Len (s.dropWhile pyIsSpace) := utf8Len_reverse _
    _ ≤ utf8Len s := utf8Len_dropWhile_le _ _

/-- With enough fuel the truncation loop enforces the 200-byte bound. -/
theorem utf8Len_truncF_le :
    ∀ (n : Nat) (s : Str), s.length ≤ n → utf8Len (truncF n s) ≤ 200
  | 0, s, h => by
    have hs : s = [] := List.length_eq_zero.mp (Nat.le_zero.mp h)
    rw [hs]
    simp [truncF, utf8Len]
  | n + 1, s, h => by
    rw [truncF]
    by_cases hle : utf8Len s ≤ 200
    · rwa [if_pos hle]
    · rw [if_neg hle]
      refine utf8Len_truncF_le n s.dropLast ?_
      have hs : s ≠ [] := by
        intro he
        rw [he] at hle
        exact hle (by simp [utf8Len])
      rw [List.length_dropLast]
      have := List.length_pos.mpr hs
      omega

/-- The 200-byte bound of `truncate200`. -/
theorem utf8Len_truncate200_le (s : Str) : utf8Len (truncate200 s) ≤ 200 :=
  utf8Len_truncF_le s.length s (le_refl _)

/-- A non-empty prefix has the same optional head as the whole list. -/
theorem head?_of_prefix {α : Type} {l₁ l₂ : List α} (h : l₁ <+: l₂)
    (hne : l₁ ≠ []) : l₂.head? = l₁.head? := by
  obtain ⟨t, ht⟩ := h
  rw [← ht]
  cases l₁ with
  | nil => exact absurd rfl hne
  | cons a r => rfl

/-- A list containing an element failing the predicate does not drop
down to nothing. -/
theorem dropWhile_ne_nil_of_mem {p : Char → Bool} {c : Char} :
    ∀ (l : Str), c ∈ l → p c = false → l.dropWhile p ≠ []
  | [], h, _ => by simp at h
  | x :: t, h, hc => by
    rw [List.dropWhile_cons]
    by_cases hx : p x = true
    · rw [if_pos hx]
      rcases List.mem_cons.mp h with h | h
      · rw [← h] at hx
        rw [hx] at hc
        exact absurd hc (by simp)
      · exact dropWhile_ne_nil_of_mem t h hc
    · rw [if_neg hx]
      simp

/-- Right-trimming via reverse/dropWhile/reverse keeps a leading part
of the original list. -/
theorem reverse_dropWhile_front (p : Char → Bool) (l : List Char) :
    (l.reverse.dropWhile p).reverse <+: l := by
  obtain ⟨t, ht⟩ :=
    (List.dropWhile_suffix p : l.reverse.dropWhile p <:+ l.reverse)
  refine ⟨t.reverse, ?_⟩
  rw [← List.reverse_append, ht, List.reverse_reverse]

/-- A stripped string is a leading part of its left-stripped form. -/
theorem pyStrip_prefix_dropWhile (s : Str) :
    pyStrip s <+: s.dropWhile pyIsSpace :=
  reverse_dropWhile_front pyIsSpace (s.dropWhile pyIsSpace)

/-- The head of a stripped string is never whitespace. -/
theorem head?_pyStrip_not_space {s : Str} {c : Char}
    (h : (pyStrip s).head? = some c) : pyIsSpace c = false := by
  have hne : pyStrip s ≠ [] := by
    intro he
    rw [he] at h
    simp at h
  have hh := head?_of_prefix (pyStrip_prefix_dropWhile s) hne
  rw [h] at hh
  exact head?_dropWhile_false pyIsSpace s c hh

/-- A string whose head is not whitespace does not strip to nothing. -/
theorem pyStrip_ne_nil_of_head {s : Str} {c : Char}
    (h : s.head? = some c) (hc : pyIsSpace c = false) : pyStrip s ≠ [] := by
  unfold pyStrip
  intro he
  rw [List.reverse_eq_nil_iff] at he
  cases s with
  | nil => simp at h
  | cons a t =>
    simp only [List.head?_cons, Option.some.injEq] at h
    subst h
    rw [List.dropWhile_cons, if_neg (by simp [hc])] at he
    exact dropWhile_ne_nil_of_mem _
      (by simp : a ∈ (a :: t).reverse) hc he

/-- Re-stripping the truncation of a stripped string cannot empty it:
truncation keeps a prefix whose head is still not whitespace.  This is
why the hash-fallback branches of both sanitizers are unreachable. -/
theorem pyStrip_truncate200_pyStrip_ne_nil (s : Str) (h : pyStrip s ≠ []) :
    pyStrip (truncate200 (pyStrip s)) ≠ [] := by
  obtain ⟨c, hc⟩ : ∃ c, (pyStrip s).head? = some c := by
    cases hps : pyStrip s with
    | nil => exact absurd hps h
    | cons a r => exact ⟨a, rfl⟩
  have hnotws := head?_pyStrip_not_space hc
  have htne : truncate200 (pyStrip s) ≠ [] := truncF_ne_nil _ _ h
  have hpre : truncate200 (pyStrip s) <+: pyStrip s := truncF_prefix _ _
  have hhead : (truncate200 (pyStrip s)).head? = some c := by
    rw [← head?_of_prefix hpre htne]
    exact hc
  exact pyStrip_ne_nil_of_head hhead hnotws

/-- Case split of the shared final if-chain of both sanitizers, given
that the hash branch is unreachable. -/
theorem sanitizeIfChain {hashv fallback name2 : Str} {olen : Nat}
    (himp : 0 < olen → name2 ≠ []) :
    ((if name2 = [] ∧ olen > 0 then hashv
      else if name2 = [] then fallback else name2) = fallback) ∨
    (((if name2 = [] ∧ olen > 0 then hashv
       else if name2 = [] then fallback else name2) = name2) ∧ name2 ≠ []) := by
  by_cases h2 : name2 = []
  · left
    have h0 : ¬olen > 0 := fun h => himp h h2
    rw [if_neg (fun hc => h0 hc.2), if_pos h2]
  · right
    exact ⟨by rw [if_neg (fun hc => h2 hc.1), if_neg h2], h2⟩

/-- Full behaviour of the lyrics-script sanitizer: its output never
contains a slash or one of the removed characters, is never empty, and
is bounded to 200 UTF-8 bytes.  The hash-fallback branch is unreachable
(truncating a stripped-nonempty string and re-stripping keeps it
non-empty), so the non-emptiness comes from the processed name or the
"_empty_title_" placeholder. -/
theorem sanitize_filename_spec (s : Str) :
    (∀ c ∈ sanitize_filename s, c ≠ '/' ∧ lyricsRemovedChar c = false) ∧
    sanitize_filename s ≠ [] ∧ utf8Len (sanitize_filename s) ≤ 200 := by
  have himp : 0 < (pyStrip (collapseRuns pyIsSpace ' '
        ((s.map (fun c => if c = '/' then '_' else c)).filter
          (fun c => !lyricsRemovedChar c)))).length →
      pyStrip (truncate200 (pyStrip (collapseRuns pyIsSpace ' '
        ((s.map (fun c => if c = '/' then '_' else c)).filter
          (fun c => !lyricsRemovedChar c))))) ≠ [] := by
    intro h
    exact pyStrip_truncate200_pyStrip_ne_nil _ (List.length_pos.mp h)
  have hdef : sanitize_filename s =
      (if pyStrip (truncate200 (pyStrip (collapseRuns pyIsSpace ' '
            ((s.map (fun c => if c = '/' then '_' else c)).filter
              (fun c => !lyricsRemovedChar c))))) = [] ∧
          (pyStrip (collapseRuns pyIsSpace ' '
            ((s.map (fun c => if c = '/' then '_' else c)).filter
              (fun c => !lyricsRemovedChar c)))).length > 0 then
        (sha1HexDigest (utf8Bytes (pyStrip (truncate200 (pyStrip
          (collapseRuns pyIsSpace ' '
            ((s.map (fun c => if c = '/' then '_' else c)).filter
              (fun c => !lyricsRemovedChar c)))))))).take 10
       else if pyStrip (truncate200 (pyStrip (collapseRuns pyIsSpace ' '
            ((s.map (fun c => if c = '/' then '_' else c)).filter
              (fun c => !lyricsRemovedChar c))))) = [] then
        cs "_empty_title_"
       else
        pyStrip (truncate200 (pyStrip (collapseRuns pyIsSpace ' '
          ((s.map (fun c => if c = '/' then '_' else c)).filter
            (fun c => !lyricsRemovedChar c)))))) := rfl
  rcases sanitizeIfChain himp with h | ⟨heq, hne⟩
  · rw [← hdef] at h
    refine ⟨?_, ?_, ?_⟩
    · intro c hc
      rw [h] at hc
      exact (by decide :
        ∀ x ∈ cs "_empty_title_", x ≠ '/' ∧ lyricsRemovedChar x = false) c hc
    · rw [h]; decide
    · rw [h]; decide
  · rw [← hdef] at heq
    refine ⟨?_, by rw [heq]; exact hne, ?_⟩
    · intro c hc
      rw [heq] at hc
      have h1 := mem_of_mem_pyStrip hc
      unfold truncate200 at h1
      have h2 := mem_of_mem_truncF _ _ h1
      have h3 := mem_of_mem_pyStrip h2
      unfold collapseRuns at h3
      rcases mem_of_mem_collapseRunsF _ _ h3 with h4 | h4
      · rcases List.mem_filter.mp h4 with ⟨h5, h6⟩
        refine ⟨?_, by simpa using h6⟩
        rcases List.mem_map.mp h5 with ⟨a, _, ha⟩
        by_cases haslash : a = '/'
        · rw [haslash] at ha
          simp at ha
          rw [← ha]
          decide
        · rw [if_neg haslash] at ha
          rw [← ha]
          exact haslash
      · rw [h4]
        exact ⟨by decide, by decide⟩
    · rw [heq]
      exact le_trans (utf8Len_pyStrip_le _) (utf8Len_truncate200_le _)

/-- Full behaviour of the player-script sanitizer: the output excludes
the whole class \x00-\x1f<>:"/\|?*, is non-empty for non-empty input,
and is bounded to 200 UTF-8 bytes.  Here too the hash-fallback branch
is unreachable and the placeholder is "_empty_metadata_". -/
theorem player_sanitize_spec (s : Str) :
    (∀ c ∈ player_sanitize_filename s, playerBadChar c = false) ∧
    (s ≠ [] → player_sanitize_filename s ≠ []) ∧
    utf8Len (player_sanitize_filename s) ≤ 200 := by
  by_cases hs : s = []
  · subst hs
    refine ⟨?_, ?_, ?_⟩
    · intro c hc
      simp [player_sanitize_filename] at hc
    · intro h
      exact absurd rfl h
    · simp [player_sanitize_filename, utf8Len]
  · have himp : 0 < (stripPlayerSet (collapseRuns (fun c => c = '_') '_'
        (s.map (fun c => if playerBadChar c then '_' else c)))).length →
        truncate200 (stripPlayerSet (collapseRuns (fun c => c = '_') '_'
          (s.map (fun c => if playerBadChar c then '_' else c)))) ≠ [] := by
      intro h
      exact truncF_ne_nil _ _ (List.length_pos.mp h)
    have hdef : player_sanitize_filename s =
        (if truncate200 (stripPlayerSet (collapseRuns (fun c => c = '_') '_'
              (s.map (fun c => if playerBadChar c then '_' else c)))) = [] ∧
            (stripPlayerSet (collapseRuns (fun c => c = '_') '_'
              (s.map (fun c => if playerBadChar c then '_' else c)))).length > 0 then
          (sha1HexDigest (utf8Bytes s)).take 16
         else if truncate200 (stripPlayerSet (collapseRuns (fun c => c = '_') '_'
              (s.map (fun c => if playerBadChar c then '_' else c)))) = [] then
          cs "_empty_metadata_"
         else
          truncate200 (stripPlayerSet (collapseRuns (fun c => c = '_') '_'
            (s.map (fun c => if playerBadChar c then '_' else c))))) := by
      unfold player_sanitize_filename
      rw [if_neg hs]
    rcases sanitizeIfChain himp with h | ⟨heq, hne⟩
    · rw [← hdef] at h
      refine ⟨?_, fun _ => by rw [h]; decide, by rw [h]; decide⟩
      intro c hc
      rw [h] at hc
      exact (by decide :
        ∀ x ∈ cs "_empty_metadata_", playerBadChar x = false) c hc
    · rw [← hdef] at heq
      refine ⟨?_, fun _ => by rw [heq]; exact hne, ?_⟩
      · intro c hc
        rw [heq] at hc
        unfold truncate200 at hc
        have h1 := mem_of_mem_truncF _ _ hc
        have h2 := mem_of_mem_stripPlayerSet h1
        unfold collapseRuns at h2
        rcases mem_of_mem_collapseRunsF _ _ h2 with h3 | h3
        · rcases List.mem_map.mp h3 with ⟨a, _, ha⟩
          by_cases hbad : playerBadChar a = true
          · rw [if_pos hbad] at ha
            rw [← ha]
            decide
          · rw [if_neg hbad] at ha
            rw [← ha]
            exact Bool.not_eq_true _ ▸ hbad
        · rw [h3]
          decide
      · rw [heq]
        exact utf8Len_truncate200_le _

/-- C7 counterexample: the lyrics-script sanitizer keeps the control
character \x01 (it only removes slash, backslash, the shell-special
punctuation and whitespace runs), and the player-script sanitizer maps
the non-empty input "///" to the placeholder "_empty_metadata_" rather
than to a short hash digest of the original input. -/
theorem claim_C7_counterexample :
    sanitize_filename ['a', '\x01', 'b'] = ['a', '\x01', 'b'] ∧
    '\x01' ∈ sanitize_filename ['a', '\x01', 'b'] ∧
    '\x01'.toNat ≤ 31 ∧
    player_sanitize_filename (cs "///") = cs "_empty_metadata_" := by
  refine ⟨by decide, by decide, by decide, by decide⟩

/-- C7 amended: the player-script sanitizer's output contains none of
\x00-\x1f<>:"/\|?*, while the lyrics-script sanitizer's output is only
guaranteed free of / \ : * ? " < > | (other control characters can
survive); both outputs are non-empty for non-empty input — via the
placeholder strings, the hash fallback being unreachable — and both are
bounded to 200 UTF-8 bytes. -/
theorem claim_C7_sanitizer_amended :
    (∀ (s : Str), ∀ c ∈ player_sanitize_filename s, playerBadChar c = false) ∧
    (∀ (s : Str), s ≠ [] → player_sanitize_filename s ≠ []) ∧
    (∀ (s : Str), utf8Len (player_sanitize_filename s) ≤ 200) ∧
    (∀ (s : Str), ∀ c ∈ sanitize_filename s,
      c ≠ '/' ∧ lyricsRemovedChar c = false) ∧
    (∀ (s : Str), sanitize_filename s ≠ []) ∧
    (∀ (s : Str), utf8Len (sanitize_filename s) ≤ 200) :=
  ⟨fun s => (player_sanitize_spec s).1,
   fun s => (player_sanitize_spec s).2.1,
   fun s => (player_sanitize_spec s).2.2,
   fun s => (sanitize_filename_spec s).1,
   fun s => (sanitize_filename_spec s).2.1,
   fun s => (sanitize_filename_spec s).2.2⟩

/-- Witness for C7 amended: a concrete path-separator-laden input for
the non-emptiness part, and the character exclusion at one input. -/
theorem claim_C7_witness :
    (cs "a/b" ≠ [] ∧ player_sanitize_filename (cs "a/b") ≠ []) ∧
    (∀ c ∈ sanitize_filename (cs "a/\\b:c"),
      c ≠ '/' ∧ lyricsRemovedChar c = false) :=
  ⟨⟨by decide, claim_C7_sanitizer_amended.2.1 (cs "a/b") (by decide)⟩,
   claim_C7_sanitizer_amended.2.2.2.1 (cs "a/\\b:c")⟩

/-- C10: the filename component built by `get_lyrics_file_path` from
any title and artist contains no path separator, is non-empty, and is
neither "." nor "..", so the computed path is a direct child of the
lyrics cache directory: joining never escapes it and never replaces the
directory with an absolute path. -/
theorem claim_C10_path_confinement (dir title artist : Str) :
    (∀ c ∈ lyricsFileName title artist, c ≠ '/') ∧
    4 ≤ (lyricsFileName title artist).length ∧
    lyricsFileName title artist ≠ [] ∧
    lyricsFileName title artist ≠ cs "." ∧
    lyricsFileName title artist ≠ cs ".." ∧
    get_lyrics_file_path dir title artist =
      dir ++ '/' :: lyricsFileName title artist := by
  have hsane := (sanitize_filename_spec artist).2.1
  have hstne := (sanitize_filename_spec title).2.1
  have heq : lyricsFileName title artist =
      sanitize_filename artist ++ cs " - " ++ sanitize_filename title ++
        cs ".lrc" := by
    simp only [lyricsFileName]
    rw [if_neg (fun hc => hstne hc.1), if_pos hsane]
  have hmem : ∀ c ∈ lyricsFileName title artist, c ≠ '/' := by
    intro c hc
    rw [heq] at hc
    rcases List.mem_append.mp hc with hc | hc
    · rcases List.mem_append.mp hc with hc | hc
      · rcases List.mem_append.mp hc with hc | hc
        · exact ((sanitize_filename_spec artist).1 c hc).1
        · exact (by decide : ∀ x ∈ cs " - ", x ≠ '/') c hc
      · exact ((sanitize_filename_spec title).1 c hc).1
    · exact (by decide : ∀ x ∈ cs ".lrc", x ≠ '/') c hc
  have hlen : 4 ≤ (lyricsFileName title artist).length := by
    rw [heq]
    simp only [List.length_append]
    have : (cs ".lrc").length = 4 := by decide
    omega
  refine ⟨hmem, hlen, ?_, ?_, ?_, ?_⟩
  · intro h
    rw [h] at hlen
    simp at hlen
  · intro h
    rw [h] at hlen
    simp [cs] at hlen
  · intro h
    rw [h] at hlen
    simp [cs] at hlen
  · unfold get_lyrics_file_path joinPath
    rw [if_neg ?hslash]
    case hslash =>
      intro hh
      have hmem2 := List.mem_of_mem_head? hh
      exact hmem '/' hmem2 rfl
